import Mathlib

/-!
Shallow embedding of the STL_Comparinator mesh-comparison core
(`src/compare.js` and `src/viewer.js`), with exact rational numbers
standing in for JavaScript IEEE doubles.  JavaScript's special values
`+Infinity`, `-Infinity` and `NaN` — which THREE.js uses to initialise an
empty `Box3` and which its `Math.min`/`Math.max`/arithmetic propagate —
are modelled by the extended type `ERat`.  A geometry's `position`
attribute is a list of rational 3-vectors; a geometry whose `position`
attribute is absent is modelled as `none`.
-/

/-- A vertex position: the three components of a THREE.Vector3. -/
structure Vec3 where
  x : ℚ
  y : ℚ
  z : ℚ
deriving DecidableEq, Repr

/-- A JavaScript number relevant to this code: an exact rational, one of
the two infinities, or NaN. -/
inductive ERat where
  | nan
  | negInf
  | fin (q : ℚ)
  | posInf
deriving DecidableEq, Repr

/-- JavaScript strict less-than on numbers: every comparison with NaN is
false, `-Infinity` is below and `+Infinity` above every other value. -/
def ERat.jlt : ERat → ERat → Bool
  | .nan, _ => false
  | _, .nan => false
  | .negInf, .negInf => false
  | .negInf, _ => true
  | _, .negInf => false
  | _, .posInf => true
  | .posInf, _ => false
  | .fin a, .fin b => decide (a < b)

/-- JavaScript `Math.min`: NaN is absorbing, otherwise the usual minimum
on the extended line. -/
def ERat.jmin : ERat → ERat → ERat
  | .nan, _ => .nan
  | _, .nan => .nan
  | .negInf, _ => .negInf
  | _, .negInf => .negInf
  | .posInf, b => b
  | a, .posInf => a
  | .fin a, .fin b => .fin (min a b)

/-- JavaScript `Math.max`: NaN is absorbing, otherwise the usual maximum
on the extended line. -/
def ERat.jmax : ERat → ERat → ERat
  | .nan, _ => .nan
  | _, .nan => .nan
  | .posInf, _ => .posInf
  | _, .posInf => .posInf
  | .negInf, b => b
  | a, .negInf => a
  | .fin a, .fin b => .fin (max a b)

/-- JavaScript subtraction on the extended line: NaN propagates and
`Infinity - Infinity` (same sign) is NaN. -/
def ERat.jsub : ERat → ERat → ERat
  | .nan, _ => .nan
  | _, .nan => .nan
  | .posInf, .posInf => .nan
  | .posInf, _ => .posInf
  | .negInf, .negInf => .nan
  | .negInf, _ => .negInf
  | .fin _, .posInf => .negInf
  | .fin _, .negInf => .posInf
  | .fin a, .fin b => .fin (a - b)

/-- JavaScript addition on the extended line: NaN propagates and
`Infinity + (-Infinity)` is NaN. -/
def ERat.jadd : ERat → ERat → ERat
  | .nan, _ => .nan
  | _, .nan => .nan
  | .posInf, .negInf => .nan
  | .negInf, .posInf => .nan
  | .posInf, _ => .posInf
  | _, .posInf => .posInf
  | .negInf, _ => .negInf
  | _, .negInf => .negInf
  | .fin a, .fin b => .fin (a + b)

/-- JavaScript multiplication by the constant 0.5 (used by
`Box3.getCenter`): halves a finite value and preserves infinities; NaN
propagates. -/
def ERat.jhalf : ERat → ERat
  | .nan => .nan
  | .posInf => .posInf
  | .negInf => .negInf
  | .fin a => .fin (a / 2)

/-- A THREE.Vector3 that may hold the special values (the corners of a
`Box3` start at the infinities). -/
structure EVec3 where
  x : ERat
  y : ERat
  z : ERat
deriving DecidableEq, Repr

/-- A THREE.Box3: a pair of corner vectors. -/
structure Box3 where
  min : EVec3
  max : EVec3
deriving DecidableEq, Repr

/-- `Box3.makeEmpty` / the `Box3` constructor: min at `+Infinity`, max at
`-Infinity`. -/
def Box3.empty : Box3 :=
  { min := ⟨.posInf, .posInf, .posInf⟩, max := ⟨.negInf, .negInf, .negInf⟩ }

/-- `Box3.expandByPoint`: `this.min.min(point); this.max.max(point)` with
`Vector3.min`/`Vector3.max` delegating to `Math.min`/`Math.max`
componentwise. -/
def Box3.expandByPoint (b : Box3) (v : Vec3) : Box3 :=
  { min := ⟨b.min.x.jmin (.fin v.x), b.min.y.jmin (.fin v.y), b.min.z.jmin (.fin v.z)⟩,
    max := ⟨b.max.x.jmax (.fin v.x), b.max.y.jmax (.fin v.y), b.max.z.jmax (.fin v.z)⟩ }

/-- `Box3.setFromBufferAttribute`: make the box empty, then expand by
every vertex of the attribute in order. -/
def Box3.setFromBufferAttribute (vs : List Vec3) : Box3 :=
  vs.foldl Box3.expandByPoint Box3.empty

/-- `Box3.isEmpty`: true when some max component is strictly below the
matching min component (JavaScript `<`). -/
def Box3.isEmpty (b : Box3) : Bool :=
  b.max.x.jlt b.min.x || b.max.y.jlt b.min.y || b.max.z.jlt b.min.z

/-- `Box3.getSize`: `(0,0,0)` for an empty box, otherwise `max - min`
componentwise. -/
def Box3.getSize (b : Box3) : EVec3 :=
  if b.isEmpty then ⟨.fin 0, .fin 0, .fin 0⟩
  else ⟨b.max.x.jsub b.min.x, b.max.y.jsub b.min.y, b.max.z.jsub b.min.z⟩

/-- `Box3.getCenter`: `(0,0,0)` for an empty box, otherwise
`(min + max) * 0.5` componentwise. -/
def Box3.getCenter (b : Box3) : EVec3 :=
  if b.isEmpty then ⟨.fin 0, .fin 0, .fin 0⟩
  else ⟨(b.min.x.jadd b.max.x).jhalf, (b.min.y.jadd b.max.y).jhalf,
        (b.min.z.jadd b.max.z).jhalf⟩

/-- The record returned by `computeBoundingBox` in `src/compare.js`:
`{ box, size, min, max }` where `min`/`max` are clones of the box
corners. -/
structure BoundingBoxResult where
  box : Box3
  size : EVec3
  min : EVec3
  max : EVec3
deriving DecidableEq, Repr

/-- `computeBoundingBox` (src/compare.js:8-15): builds a `Box3` from the
position attribute, reads its size, and returns box, size and the two
corners. -/
def computeBoundingBox (vs : List Vec3) : BoundingBoxResult :=
  let b := Box3.setFromBufferAttribute vs
  { box := b, size := b.getSize, min := b.min, max := b.max }

/-- `computeTriangleCount` (src/compare.js:17-21): 0 when the geometry
has no position attribute, otherwise the JavaScript division
`position.count / 3` (exact rational division, no validation and no
rounding). -/
def computeTriangleCount (position : Option (List Vec3)) : ℚ :=
  match position with
  | none => 0
  | some vs => (vs.length : ℚ) / 3

/-- Vector dot product (`THREE.Vector3.dot`). -/
def Vec3.dot (a b : Vec3) : ℚ := a.x * b.x + a.y * b.y + a.z * b.z

/-- Vector cross product (`THREE.Vector3.cross`). -/
def Vec3.cross (a b : Vec3) : Vec3 :=
  ⟨a.y * b.z - a.z * b.y, a.z * b.x - a.x * b.z, a.x * b.y - a.y * b.x⟩

/-- The loop body of `computeApproxVolume` (src/compare.js:37-42): the
vertices are consumed three at a time in order, each complete triple
`(p1, p2, p3)` contributing the signed tetrahedron volume
`p1 ⬝ (p2 × p3) / 6`.  (In the source, reading past the end of the
attribute for a vertex count that breaks the multiple-of-3 mesh
invariant would produce NaN; the theorems below therefore carry that
invariant as a hypothesis.) -/
def signedVolumeSum : List Vec3 → ℚ
  | p1 :: p2 :: p3 :: rest => p1.dot (p2.cross p3) / 6 + signedVolumeSum rest
  | _ => 0

/-- `computeApproxVolume` (src/compare.js:23-45): 0 when the position
attribute is absent or holds fewer than 3 vertices, otherwise the
absolute value of the accumulated signed tetrahedron volumes. -/
def computeApproxVolume (position : Option (List Vec3)) : ℚ :=
  match position with
  | none => 0
  | some vs => if vs.length < 3 then 0 else |signedVolumeSum vs|

/-- `percentDifference` (src/compare.js:47-50): 0 when both measures are
0, `+Infinity` when only the baseline is 0, otherwise the baseline-
relative signed percentage. -/
def percentDifference (baseline student : ℚ) : ERat :=
  if baseline = 0 then (if student = 0 then .fin 0 else .posInf)
  else .fin ((student - baseline) / baseline * 100)

/-!
Embedding of the normalization and orientation logic of `src/viewer.js`.
A THREE.Matrix4 is a 4×4 rational matrix; `Matrix4.multiply(m)` is
ordinary matrix multiplication `this * m`.  The source builds its
rotation matrices with `makeRotationX/Y(±Math.PI / 2)`; under exact real
semantics `cos(±π/2) = 0` and `sin(±π/2) = ±1`, so the embedding takes
the cosine and sine of the quarter turn as exact rational arguments.
-/

/-- A THREE.Matrix4 over exact rationals. -/
abbrev Mat4 := Matrix (Fin 4) (Fin 4) ℚ

/-- `Matrix4.makeRotationX(θ)` with `c = cos θ`, `s = sin θ`. -/
def makeRotationX (c s : ℚ) : Mat4 :=
  !![1, 0, 0, 0; 0, c, -s, 0; 0, s, c, 0; 0, 0, 0, 1]

/-- `Matrix4.makeRotationY(θ)` with `c = cos θ`, `s = sin θ`. -/
def makeRotationY (c s : ℚ) : Mat4 :=
  !![c, 0, s, 0; 0, 1, 0, 0; -s, 0, c, 0; 0, 0, 0, 1]

/-- `Vector3.applyMatrix4` as used by `BufferGeometry.applyMatrix4` on the
position attribute: homogeneous transform with division by the resulting
`w` component.  (For the pure rotations this program composes, `w = 1`;
rational division by zero returning 0 differs from JavaScript only on
matrices the program never builds.) -/
def applyMatrix4 (m : Mat4) (v : Vec3) : Vec3 :=
  let w := m 3 0 * v.x + m 3 1 * v.y + m 3 2 * v.z + m 3 3
  ⟨(m 0 0 * v.x + m 0 1 * v.y + m 0 2 * v.z + m 0 3) / w,
   (m 1 0 * v.x + m 1 1 * v.y + m 1 2 * v.z + m 1 3) / w,
   (m 2 0 * v.x + m 2 1 * v.y + m 2 2 * v.z + m 2 3) / w⟩

/-- `centerGeometry` (src/viewer.js:91-97): compute the bounding box of
the position attribute, read its center, and translate every vertex by
its negation.  For a vertex list the computed center is always finite
(an empty list gives the empty box whose center is `(0,0,0)`, and then
the translation is the identity on no vertices); the final catch-all
branch is unreachable on such inputs. -/
def centerGeometry (vs : List Vec3) : List Vec3 :=
  let b := Box3.setFromBufferAttribute vs
  if b.isEmpty then vs
  else
    match b.min, b.max with
    | ⟨.fin ax, .fin ay, .fin az⟩, ⟨.fin bx, .fin cy, .fin bz⟩ =>
        vs.map fun v =>
          ⟨v.x - (ax + bx) / 2, v.y - (ay + cy) / 2, v.z - (az + bz) / 2⟩
    | _, _ => vs

/-- `computeMaxDimension` (src/viewer.js:99-104): the largest component
of the bounding-box size, via `Math.max`. -/
def computeMaxDimension (vs : List Vec3) : ERat :=
  let s := (Box3.setFromBufferAttribute vs).getSize
  (s.x.jmax s.y).jmax s.z

/-- `BufferGeometry.scale(s, s, s)`: multiply every vertex component by
the uniform factor. -/
def scaleVec (s : ℚ) (v : Vec3) : Vec3 := ⟨s * v.x, s * v.y, s * v.z⟩

/-- The scale factor of `loadStudent` (src/viewer.js:146-148):
`studentMax > 0 ? baselineMax / studentMax : 1`, where both max
dimensions are the finite values computed by `computeMaxDimension` (for
vertex lists they are always finite, proved below, so the catch-all
branch is unreachable). -/
def studentScale (baselineVs g : List Vec3) : ℚ :=
  match computeMaxDimension g, computeMaxDimension baselineVs with
  | .fin studentMax, .fin baselineMax =>
      if 0 < studentMax then baselineMax / studentMax else 1
  | _, _ => 1

/-- The geometry pipeline of `loadStudent` (src/viewer.js:142-149):
center the freshly loaded geometry, compute the scale factor, and scale
every vertex uniformly. -/
def loadStudentGeometry (baselineVs vs : List Vec3) : List Vec3 :=
  let g := centerGeometry vs
  g.map (scaleVec (studentScale baselineVs g))

/-- Running minimum of a vertex component over a list, seeded with an
initial value: the rational trace of the `Box3` min fold. -/
def listMin (f : Vec3 → ℚ) (p : ℚ) (vs : List Vec3) : ℚ :=
  vs.foldl (fun a v => min a (f v)) p

/-- Running maximum of a vertex component over a list, seeded with an
initial value: the rational trace of the `Box3` max fold. -/
def listMax (f : Vec3 → ℚ) (p : ℚ) (vs : List Vec3) : ℚ :=
  vs.foldl (fun a v => max a (f v)) p

/-- The module-level mutable state of `src/viewer.js` that the core logic
touches: whether `initViewer` has run (`scene`), the two stored
geometries, whether a student mesh object exists, and the running
orientation transform. -/
structure ViewerState where
  sceneReady : Bool
  baselineGeometry : Option (List Vec3)
  studentMeshPresent : Bool
  studentGeometry : Option (List Vec3)
  studentTransform : Mat4

/-- `loadStudent` (src/viewer.js:133-162): throws when the viewer is not
initialized or no baseline geometry is stored (a rejected promise the
caller receives as a value); otherwise stores the centered and scaled
geometry, resets the orientation transform to identity, and installs a
fresh student mesh. -/
def loadStudent (st : ViewerState) (vs : List Vec3) : Except String ViewerState :=
  if st.sceneReady = false then .error "Viewer not initialized."
  else
    match st.baselineGeometry with
    | none => .error "Load the baseline before loading a student model."
    | some b =>
        .ok { st with
                studentGeometry := some (loadStudentGeometry b vs),
                studentTransform := 1,
                studentMeshPresent := true }

/-- `rotateStudent` (src/viewer.js:164-181): a no-op unless a student
mesh and geometry exist; picks `angle = ±π/2` from the sign of
`direction`, builds the rotation about the requested axis, and
left-multiplies it onto the running transform; any axis other than
`"x"`/`"y"` returns without change. -/
def rotateStudent (axis : String) (direction : ℤ) (st : ViewerState) : ViewerState :=
  if st.studentMeshPresent = false ∨ st.studentGeometry = none then st
  else
    let s : ℚ := if 0 < direction then 1 else -1
    if axis = "x" then
      { st with studentTransform := makeRotationX 0 s * st.studentTransform }
    else if axis = "y" then
      { st with studentTransform := makeRotationY 0 s * st.studentTransform }
    else st

/-- `resetStudentOrientation` (src/viewer.js:183-189): a no-op unless a
student mesh exists; sets the running transform to the identity. -/
def resetStudentOrientation (st : ViewerState) : ViewerState :=
  if st.studentMeshPresent = false then st
  else { st with studentTransform := 1 }

/-- `getNormalizedGeometries` (src/viewer.js:191-196): `null` unless both
geometries are stored; otherwise the stored baseline together with a
clone of the stored student geometry with the orientation transform
baked into its vertices. -/
def getNormalizedGeometries (st : ViewerState) : Option (List Vec3 × List Vec3) :=
  match st.baselineGeometry, st.studentGeometry with
  | some b, some s => some (b, s.map (applyMatrix4 st.studentTransform))
  | _, _ => none

/-- An orientation action a user can trigger: a rotation button or the
reset button. -/
inductive OrientAction where
  | rotate (axis : String) (direction : ℤ)
  | reset

/-- Apply one orientation action to the viewer state. -/
def OrientAction.apply : OrientAction → ViewerState → ViewerState
  | .rotate axis direction, st => rotateStudent axis direction st
  | .reset, st => resetStudentOrientation st

/-- Run a sequence of orientation actions in order. -/
def runOrientActions (acts : List OrientAction) (st : ViewerState) : ViewerState :=
  acts.foldl (fun s a => a.apply s) st


/-!
Supporting lemmas: the `Box3` fold over a vertex list is characterised
by the rational running minima and maxima, from which the bounding-box
and max-dimension facts used by the claims follow.
-/

/-- The min fold over finite values stays finite and agrees with the
rational running minimum. -/
theorem foldl_jmin_fin (f : Vec3 → ℚ) (vs : List Vec3) : ∀ p : ℚ,
    vs.foldl (fun (a : ERat) (v : Vec3) => a.jmin (.fin (f v))) (ERat.fin p) =
      ERat.fin (listMin f p vs) := by
  induction vs with
  | nil => intro p; rfl
  | cons v rest ih =>
      intro p
      simpa [listMin, List.foldl_cons, ERat.jmin] using ih (min p (f v))

/-- The max fold over finite values stays finite and agrees with the
rational running maximum. -/
theorem foldl_jmax_fin (f : Vec3 → ℚ) (vs : List Vec3) : ∀ p : ℚ,
    vs.foldl (fun (a : ERat) (v : Vec3) => a.jmax (.fin (f v))) (ERat.fin p) =
      ERat.fin (listMax f p vs) := by
  induction vs with
  | nil => intro p; rfl
  | cons v rest ih =>
      intro p
      simpa [listMax, List.foldl_cons, ERat.jmax] using ih (max p (f v))

/-- The running minimum never exceeds its seed. -/
theorem listMin_le_init (f : Vec3 → ℚ) (vs : List Vec3) : ∀ p : ℚ, listMin f p vs ≤ p := by
  induction vs with
  | nil => intro p; exact le_refl p
  | cons v rest ih => intro p; exact le_trans (ih (min p (f v))) (min_le_left _ _)

/-- The running maximum is at least its seed. -/
theorem init_le_listMax (f : Vec3 → ℚ) (vs : List Vec3) : ∀ p : ℚ, p ≤ listMax f p vs := by
  induction vs with
  | nil => intro p; exact le_refl p
  | cons v rest ih => intro p; exact le_trans (le_max_left _ _) (ih (max p (f v)))

/-- Expanding a box by a list of points acts componentwise as the six
independent min/max folds. -/
theorem foldl_expandByPoint (vs : List Vec3) : ∀ b : Box3,
    vs.foldl Box3.expandByPoint b =
      { min := ⟨vs.foldl (fun (a : ERat) (v : Vec3) => a.jmin (.fin v.x)) b.min.x,
                vs.foldl (fun (a : ERat) (v : Vec3) => a.jmin (.fin v.y)) b.min.y,
                vs.foldl (fun (a : ERat) (v : Vec3) => a.jmin (.fin v.z)) b.min.z⟩,
        max := ⟨vs.foldl (fun (a : ERat) (v : Vec3) => a.jmax (.fin v.x)) b.max.x,
                vs.foldl (fun (a : ERat) (v : Vec3) => a.jmax (.fin v.y)) b.max.y,
                vs.foldl (fun (a : ERat) (v : Vec3) => a.jmax (.fin v.z)) b.max.z⟩ } := by
  induction vs with
  | nil => intro b; rfl
  | cons v rest ih =>
      intro b
      rw [List.foldl_cons, ih (b.expandByPoint v)]
      rfl

/-- The bounding box of a non-empty vertex list: finite corners given by
the running minima and maxima seeded at the first vertex. -/
theorem setFromBufferAttribute_cons (v : Vec3) (rest : List Vec3) :
    Box3.setFromBufferAttribute (v :: rest) =
      { min := ⟨.fin (listMin Vec3.x v.x rest), .fin (listMin Vec3.y v.y rest),
                .fin (listMin Vec3.z v.z rest)⟩,
        max := ⟨.fin (listMax Vec3.x v.x rest), .fin (listMax Vec3.y v.y rest),
                .fin (listMax Vec3.z v.z rest)⟩ } := by
  unfold Box3.setFromBufferAttribute
  rw [List.foldl_cons]
  rw [foldl_expandByPoint]
  have h : Box3.empty.expandByPoint v =
      { min := ⟨.fin v.x, .fin v.y, .fin v.z⟩, max := ⟨.fin v.x, .fin v.y, .fin v.z⟩ } := rfl
  rw [h]
  rw [foldl_jmin_fin Vec3.x, foldl_jmin_fin Vec3.y, foldl_jmin_fin Vec3.z,
      foldl_jmax_fin Vec3.x, foldl_jmax_fin Vec3.y, foldl_jmax_fin Vec3.z]

/-- The box of a non-empty vertex list is not empty. -/
theorem setFromBufferAttribute_cons_isEmpty (v : Vec3) (rest : List Vec3) :
    (Box3.setFromBufferAttribute (v :: rest)).isEmpty = false := by
  rw [setFromBufferAttribute_cons]
  have hx : ¬ listMax Vec3.x v.x rest < listMin Vec3.x v.x rest :=
    not_lt.mpr (le_trans (listMin_le_init _ _ _) (init_le_listMax _ _ _))
  have hy : ¬ listMax Vec3.y v.y rest < listMin Vec3.y v.y rest :=
    not_lt.mpr (le_trans (listMin_le_init _ _ _) (init_le_listMax _ _ _))
  have hz : ¬ listMax Vec3.z v.z rest < listMin Vec3.z v.z rest :=
    not_lt.mpr (le_trans (listMin_le_init _ _ _) (init_le_listMax _ _ _))
  simp [Box3.isEmpty, ERat.jlt, hx, hy, hz]

/-- The size of the box of a non-empty vertex list: finite componentwise
difference of running max and min. -/
theorem setFromBufferAttribute_cons_getSize (v : Vec3) (rest : List Vec3) :
    (Box3.setFromBufferAttribute (v :: rest)).getSize =
      ⟨.fin (listMax Vec3.x v.x rest - listMin Vec3.x v.x rest),
       .fin (listMax Vec3.y v.y rest - listMin Vec3.y v.y rest),
       .fin (listMax Vec3.z v.z rest - listMin Vec3.z v.z rest)⟩ := by
  unfold Box3.getSize
  rw [setFromBufferAttribute_cons_isEmpty]
  rw [setFromBufferAttribute_cons]
  rfl

/-- The max dimension of the empty vertex list is the finite value 0. -/
theorem computeMaxDimension_nil : computeMaxDimension [] = .fin 0 := rfl

/-- The max dimension of a non-empty vertex list is the finite maximum
of the three extents. -/
theorem computeMaxDimension_cons (v : Vec3) (rest : List Vec3) :
    computeMaxDimension (v :: rest) =
      .fin (max (max (listMax Vec3.x v.x rest - listMin Vec3.x v.x rest)
                     (listMax Vec3.y v.y rest - listMin Vec3.y v.y rest))
                (listMax Vec3.z v.z rest - listMin Vec3.z v.z rest)) := by
  unfold computeMaxDimension
  rw [setFromBufferAttribute_cons_getSize]
  rfl

/-- Every vertex list has a finite, non-negative max dimension. -/
theorem computeMaxDimension_fin (vs : List Vec3) :
    ∃ q : ℚ, computeMaxDimension vs = .fin q ∧ 0 ≤ q := by
  cases vs with
  | nil => exact ⟨0, rfl, le_refl 0⟩
  | cons v rest =>
      refine ⟨_, computeMaxDimension_cons v rest, ?_⟩
      have hx : 0 ≤ listMax Vec3.x v.x rest - listMin Vec3.x v.x rest :=
        sub_nonneg.mpr (le_trans (listMin_le_init _ _ _) (init_le_listMax _ _ _))
      exact le_trans hx (le_trans (le_max_left _ _) (le_max_left _ _))

/-- The running minimum commutes with a uniform non-negative scale. -/
theorem listMin_scale (f : Vec3 → ℚ) (s : ℚ) (hs : 0 ≤ s)
    (hf : ∀ w : Vec3, f (scaleVec s w) = s * f w) (vs : List Vec3) : ∀ p : ℚ,
    listMin f (s * p) (vs.map (scaleVec s)) = s * listMin f p vs := by
  induction vs with
  | nil => intro p; rfl
  | cons v rest ih =>
      intro p
      show listMin f (min (s * p) (f (scaleVec s v))) (rest.map (scaleVec s)) =
        s * listMin f (min p (f v)) rest
      rw [hf v, ← mul_min_of_nonneg p (f v) hs]
      exact ih (min p (f v))

/-- The running maximum commutes with a uniform non-negative scale. -/
theorem listMax_scale (f : Vec3 → ℚ) (s : ℚ) (hs : 0 ≤ s)
    (hf : ∀ w : Vec3, f (scaleVec s w) = s * f w) (vs : List Vec3) : ∀ p : ℚ,
    listMax f (s * p) (vs.map (scaleVec s)) = s * listMax f p vs := by
  induction vs with
  | nil => intro p; rfl
  | cons v rest ih =>
      intro p
      show listMax f (max (s * p) (f (scaleVec s v))) (rest.map (scaleVec s)) =
        s * listMax f (max p (f v)) rest
      rw [hf v, ← mul_max_of_nonneg p (f v) hs]
      exact ih (max p (f v))

/-- Scaling a vertex list uniformly by a non-negative factor scales its
max dimension by the same factor. -/
theorem computeMaxDimension_scale (s : ℚ) (hs : 0 ≤ s) (vs : List Vec3) (q : ℚ)
    (h : computeMaxDimension vs = .fin q) :
    computeMaxDimension (vs.map (scaleVec s)) = .fin (s * q) := by
  cases vs with
  | nil =>
      rw [computeMaxDimension_nil] at h
      injection h with h
      rw [List.map_nil, computeMaxDimension_nil, ← h, mul_zero]
  | cons v rest =>
      rw [computeMaxDimension_cons] at h
      injection h with h
      rw [List.map_cons, computeMaxDimension_cons]
      have hfx : ∀ w : Vec3, Vec3.x (scaleVec s w) = s * Vec3.x w := fun _ => rfl
      have hfy : ∀ w : Vec3, Vec3.y (scaleVec s w) = s * Vec3.y w := fun _ => rfl
      have hfz : ∀ w : Vec3, Vec3.z (scaleVec s w) = s * Vec3.z w := fun _ => rfl
      rw [show (scaleVec s v).x = s * v.x from rfl, show (scaleVec s v).y = s * v.y from rfl,
          show (scaleVec s v).z = s * v.z from rfl]
      rw [listMin_scale Vec3.x s hs hfx rest v.x, listMin_scale Vec3.y s hs hfy rest v.y,
          listMin_scale Vec3.z s hs hfz rest v.z, listMax_scale Vec3.x s hs hfx rest v.x,
          listMax_scale Vec3.y s hs hfy rest v.y, listMax_scale Vec3.z s hs hfz rest v.z]
      rw [← mul_sub, ← mul_sub, ← mul_sub, ← mul_max_of_nonneg _ _ hs,
          ← mul_max_of_nonneg _ _ hs, h]

/-!
Supporting lemmas for the orientation composer: exact quarter-turn
algebra and the branch structure of `rotateStudent` and
`resetStudentOrientation`.
-/

/-- A negative quarter turn about X is the exact inverse of a positive
one. -/
theorem rotX_inv_mul : makeRotationX 0 (-1) * makeRotationX 0 1 = 1 := by
  ext i j
  fin_cases i <;> fin_cases j <;>
    norm_num [makeRotationX, Matrix.mul_apply, Fin.sum_univ_four, Matrix.one_apply,
      Matrix.vecHead, Matrix.vecTail, Fin.ext_iff]

/-- A negative quarter turn about Y is the exact inverse of a positive
one. -/
theorem rotY_inv_mul : makeRotationY 0 (-1) * makeRotationY 0 1 = 1 := by
  ext i j
  fin_cases i <;> fin_cases j <;>
    norm_num [makeRotationY, Matrix.mul_apply, Fin.sum_univ_four, Matrix.one_apply,
      Matrix.vecHead, Matrix.vecTail, Fin.ext_iff]

/-- Four positive quarter turns about X compose to the exact identity. -/
theorem rotX_pow_four :
    makeRotationX 0 1 * (makeRotationX 0 1 * (makeRotationX 0 1 * makeRotationX 0 1)) = 1 := by
  ext i j
  fin_cases i <;> fin_cases j <;>
    norm_num [makeRotationX, Matrix.mul_apply, Fin.sum_univ_four, Matrix.one_apply,
      Matrix.vecHead, Matrix.vecTail, Fin.ext_iff]

/-- With a student mesh and geometry present, `rotateStudent` reduces to
its axis dispatch. -/
theorem rotateStudent_of_loaded (axis : String) (d : ℤ) (st : ViewerState)
    (h : ¬ (st.studentMeshPresent = false ∨ st.studentGeometry = none)) :
    rotateStudent axis d st =
      if axis = "x" then
        { st with studentTransform :=
            makeRotationX 0 (if 0 < d then (1 : ℚ) else -1) * st.studentTransform }
      else if axis = "y" then
        { st with studentTransform :=
            makeRotationY 0 (if 0 < d then (1 : ℚ) else -1) * st.studentTransform }
      else st := by
  unfold rotateStudent
  rw [if_neg h]

/-- Without a student mesh or geometry, `rotateStudent` returns the state
unchanged. -/
theorem rotateStudent_noop (axis : String) (d : ℤ) (st : ViewerState)
    (h : st.studentMeshPresent = false ∨ st.studentGeometry = none) :
    rotateStudent axis d st = st := by
  unfold rotateStudent
  rw [if_pos h]

/-- `rotateStudent` never changes the stored student geometry. -/
theorem rotateStudent_studentGeometry (axis : String) (d : ℤ) (st : ViewerState) :
    (rotateStudent axis d st).studentGeometry = st.studentGeometry := by
  unfold rotateStudent
  split_ifs <;> rfl

/-- `rotateStudent` never changes the stored baseline geometry. -/
theorem rotateStudent_baselineGeometry (axis : String) (d : ℤ) (st : ViewerState) :
    (rotateStudent axis d st).baselineGeometry = st.baselineGeometry := by
  unfold rotateStudent
  split_ifs <;> rfl

/-- `rotateStudent` never changes the student-mesh flag. -/
theorem rotateStudent_studentMeshPresent (axis : String) (d : ℤ) (st : ViewerState) :
    (rotateStudent axis d st).studentMeshPresent = st.studentMeshPresent := by
  unfold rotateStudent
  split_ifs <;> rfl

/-- With a student mesh present, `resetStudentOrientation` sets the
transform to the identity and changes nothing else. -/
theorem resetStudentOrientation_of_loaded (st : ViewerState)
    (h : st.studentMeshPresent = true) :
    resetStudentOrientation st = { st with studentTransform := 1 } := by
  unfold resetStudentOrientation
  rw [if_neg (by simp [h])]

/-- `resetStudentOrientation` never changes the stored student
geometry. -/
theorem resetStudentOrientation_studentGeometry (st : ViewerState) :
    (resetStudentOrientation st).studentGeometry = st.studentGeometry := by
  unfold resetStudentOrientation
  split_ifs <;> rfl

/-- `resetStudentOrientation` never changes the stored baseline
geometry. -/
theorem resetStudentOrientation_baselineGeometry (st : ViewerState) :
    (resetStudentOrientation st).baselineGeometry = st.baselineGeometry := by
  unfold resetStudentOrientation
  split_ifs <;> rfl

/-!
Claim theorems.
-/

/-- C1: `percent_difference(baseline, candidate)` returns 0 when both
are 0, `+Infinity` when the baseline is 0 and the candidate is nonzero,
and `(candidate - baseline) / baseline * 100` otherwise; in particular
`percent_difference(x, x) = 0` for every `x`, including 0. -/
theorem percentDifference_spec (b s x : ℚ) :
    (b = 0 → s = 0 → percentDifference b s = .fin 0) ∧
    (b = 0 → s ≠ 0 → percentDifference b s = .posInf) ∧
    (b ≠ 0 → percentDifference b s = .fin ((s - b) / b * 100)) ∧
    percentDifference x x = .fin 0 := by
  refine ⟨?_, ?_, ?_, ?_⟩
  · intro hb hs; simp [percentDifference, hb, hs]
  · intro hb hs; simp [percentDifference, hb, hs]
  · intro hb; simp [percentDifference, hb]
  · by_cases hx : x = 0
    · simp [percentDifference, hx]
    · simp [percentDifference, hx]

/-- Witness for C1 at concrete inputs. -/
theorem percentDifference_spec_witness :
    percentDifference 0 0 = .fin 0 ∧ percentDifference 0 3 = .posInf ∧
    percentDifference 2 3 = .fin ((3 - 2) / 2 * 100) ∧ percentDifference 5 5 = .fin 0 :=
  ⟨(percentDifference_spec 0 0 5).1 rfl rfl,
   (percentDifference_spec 0 3 5).2.1 rfl (by norm_num),
   (percentDifference_spec 2 3 5).2.2.1 (by norm_num),
   (percentDifference_spec 2 3 5).2.2.2⟩

/-- C2: `approx_volume` is the absolute value of the sum of the signed
tetrahedron volumes of the consecutive triangles (under the mesh
invariant that the vertex count is a multiple of 3), a mesh with fewer
than 3 vertices yields 0, and the result is non-negative for every
input regardless of winding. -/
theorem computeApproxVolume_spec :
    (∀ position : Option (List Vec3), 0 ≤ computeApproxVolume position) ∧
    (∀ vs : List Vec3, vs.length % 3 = 0 →
        computeApproxVolume (some vs) = |signedVolumeSum vs|) ∧
    (∀ vs : List Vec3, vs.length < 3 → computeApproxVolume (some vs) = 0) := by
  refine ⟨?_, ?_, ?_⟩
  · intro position
    cases position with
    | none => exact le_refl 0
    | some vs =>
        by_cases h : vs.length < 3
        · simp [computeApproxVolume, h]
        · simp [computeApproxVolume, h]
  · intro vs h
    by_cases hlt : vs.length < 3
    · have h0 : vs.length = 0 := by omega
      have hnil : vs = [] := List.length_eq_zero.mp h0
      subst hnil
      simp [computeApproxVolume, signedVolumeSum]
    · simp [computeApproxVolume, hlt]
  · intro vs h
    simp [computeApproxVolume, h]

/-- Witness for C2: a single triangle, a sub-triangle vertex list, and
non-negativity at a concrete mesh. -/
theorem computeApproxVolume_spec_witness :
    computeApproxVolume (some [⟨1, 0, 0⟩, ⟨0, 1, 0⟩, ⟨0, 0, 1⟩]) =
      |signedVolumeSum [⟨1, 0, 0⟩, ⟨0, 1, 0⟩, ⟨0, 0, 1⟩]| ∧
    computeApproxVolume (some [⟨1, 0, 0⟩]) = 0 ∧
    0 ≤ computeApproxVolume (some [⟨1, 0, 0⟩, ⟨0, 1, 0⟩, ⟨0, 0, 1⟩]) :=
  ⟨computeApproxVolume_spec.2.1 _ (by simp),
   computeApproxVolume_spec.2.2 _ (by simp),
   computeApproxVolume_spec.1 _⟩

/-- C3 counterexample: on a geometry with 4 vertices (vertex count not a
multiple of 3) `computeTriangleCount` neither validates nor fails: it
returns the fractional value `4 / 3`, which is not an integer. -/
theorem computeTriangleCount_no_validation :
    computeTriangleCount (some [⟨0, 0, 0⟩, ⟨0, 0, 0⟩, ⟨0, 0, 0⟩, ⟨0, 0, 0⟩]) = 4 / 3 ∧
    ¬ ∃ n : ℤ,
      computeTriangleCount (some [⟨0, 0, 0⟩, ⟨0, 0, 0⟩, ⟨0, 0, 0⟩, ⟨0, 0, 0⟩]) = (n : ℚ) := by
  have h4 : computeTriangleCount (some [⟨0, 0, 0⟩, ⟨0, 0, 0⟩, ⟨0, 0, 0⟩, ⟨0, 0, 0⟩]) = 4 / 3 := by
    norm_num [computeTriangleCount]
  refine ⟨h4, ?_⟩
  rintro ⟨n, hn⟩
  rw [h4] at hn
  have h3 : (4 : ℚ) = 3 * (n : ℚ) := by field_simp at hn; linarith
  have h5 : (4 : ℤ) = 3 * n := by exact_mod_cast h3
  omega

/-- C3 amended: `computeTriangleCount` returns `vertex_count / 3`, and
under the mesh invariant (vertex count a multiple of 3) that value is
the exact integer `vertex_count / 3`; no validation is performed. -/
theorem computeTriangleCount_exact (vs : List Vec3) (h : vs.length % 3 = 0) :
    computeTriangleCount (some vs) = ((vs.length / 3 : ℕ) : ℚ) := by
  obtain ⟨k, hk⟩ : ∃ k, vs.length = 3 * k :=
    ⟨vs.length / 3, (Nat.mul_div_cancel' (Nat.dvd_of_mod_eq_zero h)).symm⟩
  show (vs.length : ℚ) / 3 = ((vs.length / 3 : ℕ) : ℚ)
  rw [hk, Nat.mul_div_cancel_left k (by norm_num : 0 < 3)]
  push_cast
  ring

/-- Witness for the amended C3 at a 6-vertex list. -/
theorem computeTriangleCount_exact_witness :
    computeTriangleCount
        (some [⟨0, 0, 0⟩, ⟨0, 0, 0⟩, ⟨0, 0, 0⟩, ⟨0, 0, 0⟩, ⟨0, 0, 0⟩, ⟨0, 0, 0⟩]) =
      ((([⟨0, 0, 0⟩, ⟨0, 0, 0⟩, ⟨0, 0, 0⟩, ⟨0, 0, 0⟩, ⟨0, 0, 0⟩,
          ⟨0, 0, 0⟩] : List Vec3).length / 3 : ℕ) : ℚ) :=
  computeTriangleCount_exact _ (by simp)

/-- C4 counterexample: `computeBoundingBox` on a zero-vertex mesh does
not fail: it returns the inverted empty box (min at `+Infinity`, max at
`-Infinity`, size 0), a value whose max is strictly below its min. -/
theorem computeBoundingBox_empty_no_failure :
    computeBoundingBox [] =
      { box := Box3.empty, size := ⟨.fin 0, .fin 0, .fin 0⟩,
        min := ⟨.posInf, .posInf, .posInf⟩, max := ⟨.negInf, .negInf, .negInf⟩ } ∧
    (computeBoundingBox []).max.x.jlt (computeBoundingBox []).min.x = true := by
  constructor
  · rfl
  · rfl

/-- C4 amended: on every non-empty mesh `computeBoundingBox` returns
finite corners with every size component non-negative and
`min + size = max` exactly; on the zero-vertex mesh it does not fail but
returns the inverted empty box. -/
theorem computeBoundingBox_nonempty_spec (v : Vec3) (rest : List Vec3) :
    ∃ m M : Vec3,
      (computeBoundingBox (v :: rest)).min = ⟨.fin m.x, .fin m.y, .fin m.z⟩ ∧
      (computeBoundingBox (v :: rest)).max = ⟨.fin M.x, .fin M.y, .fin M.z⟩ ∧
      (computeBoundingBox (v :: rest)).size =
        ⟨.fin (M.x - m.x), .fin (M.y - m.y), .fin (M.z - m.z)⟩ ∧
      (0 ≤ M.x - m.x ∧ 0 ≤ M.y - m.y ∧ 0 ≤ M.z - m.z) ∧
      (m.x + (M.x - m.x) = M.x ∧ m.y + (M.y - m.y) = M.y ∧ m.z + (M.z - m.z) = M.z) := by
  refine ⟨⟨listMin Vec3.x v.x rest, listMin Vec3.y v.y rest, listMin Vec3.z v.z rest⟩,
          ⟨listMax Vec3.x v.x rest, listMax Vec3.y v.y rest, listMax Vec3.z v.z rest⟩,
          ?_, ?_, ?_, ⟨?_, ?_, ?_⟩, ⟨by ring, by ring, by ring⟩⟩
  · show (Box3.setFromBufferAttribute (v :: rest)).min = _
    rw [setFromBufferAttribute_cons]
  · show (Box3.setFromBufferAttribute (v :: rest)).max = _
    rw [setFromBufferAttribute_cons]
  · show (Box3.setFromBufferAttribute (v :: rest)).getSize = _
    rw [setFromBufferAttribute_cons_getSize]
  · exact sub_nonneg.mpr (le_trans (listMin_le_init _ _ _) (init_le_listMax _ _ _))
  · exact sub_nonneg.mpr (le_trans (listMin_le_init _ _ _) (init_le_listMax _ _ _))
  · exact sub_nonneg.mpr (le_trans (listMin_le_init _ _ _) (init_le_listMax _ _ _))

/-- Witness for the amended C4 at a concrete two-vertex mesh. -/
theorem computeBoundingBox_nonempty_spec_witness :
    ∃ m M : Vec3,
      (computeBoundingBox [⟨0, 0, 0⟩, ⟨2, 3, 4⟩]).min = ⟨.fin m.x, .fin m.y, .fin m.z⟩ ∧
      (computeBoundingBox [⟨0, 0, 0⟩, ⟨2, 3, 4⟩]).max = ⟨.fin M.x, .fin M.y, .fin M.z⟩ ∧
      (computeBoundingBox [⟨0, 0, 0⟩, ⟨2, 3, 4⟩]).size =
        ⟨.fin (M.x - m.x), .fin (M.y - m.y), .fin (M.z - m.z)⟩ ∧
      (0 ≤ M.x - m.x ∧ 0 ≤ M.y - m.y ∧ 0 ≤ M.z - m.z) ∧
      (m.x + (M.x - m.x) = M.x ∧ m.y + (M.y - m.y) = M.y ∧ m.z + (M.z - m.z) = M.z) :=
  computeBoundingBox_nonempty_spec ⟨0, 0, 0⟩ [⟨2, 3, 4⟩]

/-- C10: a geometry with no position attribute at all yields triangle
count 0 with no failure surfaced. -/
theorem computeTriangleCount_missing_attribute : computeTriangleCount none = 0 := rfl

/-- The transform produced by `rotateStudent` on a loaded state: the
axis-dispatched quarter-turn matrix (identity for an invalid axis)
left-multiplied onto the running transform. -/
theorem rotateStudent_transform_of_loaded (axis : String) (d : ℤ) (u : ViewerState)
    (h : ¬ (u.studentMeshPresent = false ∨ u.studentGeometry = none)) :
    (rotateStudent axis d u).studentTransform =
      (if axis = "x" then makeRotationX 0 (if 0 < d then (1 : ℚ) else -1)
       else if axis = "y" then makeRotationY 0 (if 0 < d then (1 : ℚ) else -1)
       else 1) * u.studentTransform := by
  rw [rotateStudent_of_loaded _ _ _ h]
  by_cases hx : axis = "x"
  · rw [if_pos hx, if_pos hx]
  · rw [if_neg hx, if_neg hx]
    by_cases hy : axis = "y"
    · rw [if_pos hy, if_pos hy]
    · rw [if_neg hy, if_neg hy, one_mul]

/-- C5: with a student loaded, `rotateStudent` on axis `"x"` or `"y"`
with direction `+1` or `-1` builds the corresponding quarter-turn matrix
(`+90°` for `+1`, `-90°` for `-1`) and left-multiplies it onto the
running transform; any other axis leaves the whole state unchanged with
no failure. -/
theorem rotateStudent_spec (st : ViewerState) (d : ℤ)
    (hm : st.studentMeshPresent = true) (hg : st.studentGeometry ≠ none) :
    (rotateStudent "x" 1 st).studentTransform = makeRotationX 0 1 * st.studentTransform ∧
    (rotateStudent "x" (-1) st).studentTransform =
      makeRotationX 0 (-1) * st.studentTransform ∧
    (rotateStudent "y" 1 st).studentTransform = makeRotationY 0 1 * st.studentTransform ∧
    (rotateStudent "y" (-1) st).studentTransform =
      makeRotationY 0 (-1) * st.studentTransform ∧
    (∀ axis : String, axis ≠ "x" → axis ≠ "y" → rotateStudent axis d st = st) := by
  have hcond : ¬ (st.studentMeshPresent = false ∨ st.studentGeometry = none) := by
    simp [hm, hg]
  have hyx : ¬ ("y" : String) = "x" := by decide
  refine ⟨?_, ?_, ?_, ?_, ?_⟩
  · rw [rotateStudent_of_loaded _ _ _ hcond, if_pos rfl]
    norm_num
  · rw [rotateStudent_of_loaded _ _ _ hcond, if_pos rfl]
    norm_num
  · rw [rotateStudent_of_loaded _ _ _ hcond, if_neg hyx, if_pos rfl]
    norm_num
  · rw [rotateStudent_of_loaded _ _ _ hcond, if_neg hyx, if_pos rfl]
    norm_num
  · intro axis hx hy
    rw [rotateStudent_of_loaded _ _ _ hcond, if_neg hx, if_neg hy]

/-- Witness for C5 at a concrete loaded state and the invalid axis
`"z"`. -/
theorem rotateStudent_spec_witness :
    (rotateStudent "x" 1 ⟨true, none, true, some [], 1⟩).studentTransform =
      makeRotationX 0 1 * (⟨true, none, true, some [], 1⟩ : ViewerState).studentTransform ∧
    rotateStudent "z" 7 ⟨true, none, true, some [], 1⟩ =
      (⟨true, none, true, some [], 1⟩ : ViewerState) :=
  ⟨(rotateStudent_spec ⟨true, none, true, some [], 1⟩ 7 rfl (by simp)).1,
   (rotateStudent_spec ⟨true, none, true, some [], 1⟩ 7 rfl
      (by simp)).2.2.2.2 "z" (by decide) (by decide)⟩

/-- C6: with a student loaded, `reset` followed by four `rotate(X, +1)`
calls yields the exact identity transform, and for either axis a `+1`
rotation followed by a `-1` rotation restores the transform that held
before the pair (from any state). -/
theorem orientation_group_action (st st2 : ViewerState)
    (hm : st.studentMeshPresent = true) (hg : st.studentGeometry ≠ none) :
    (rotateStudent "x" 1 (rotateStudent "x" 1 (rotateStudent "x" 1 (rotateStudent "x" 1
        (resetStudentOrientation st))))).studentTransform = 1 ∧
    (∀ axis : String, (axis = "x" ∨ axis = "y") →
        (rotateStudent axis (-1) (rotateStudent axis 1 st2)).studentTransform =
          st2.studentTransform) := by
  constructor
  · have hguard : ∀ u : ViewerState, u.studentMeshPresent = true → u.studentGeometry ≠ none →
        ¬ (u.studentMeshPresent = false ∨ u.studentGeometry = none) := by
      intro u h1 h2; simp [h1, h2]
    have m0 : (resetStudentOrientation st).studentMeshPresent = true := by
      rw [resetStudentOrientation_of_loaded st hm]; exact hm
    have g0 : (resetStudentOrientation st).studentGeometry ≠ none := by
      rw [resetStudentOrientation_of_loaded st hm]; exact hg
    have t0 : (resetStudentOrientation st).studentTransform = 1 := by
      rw [resetStudentOrientation_of_loaded st hm]
    have step : ∀ u : ViewerState, u.studentMeshPresent = true → u.studentGeometry ≠ none →
        (rotateStudent "x" 1 u).studentTransform = makeRotationX 0 1 * u.studentTransform ∧
        (rotateStudent "x" 1 u).studentMeshPresent = true ∧
        (rotateStudent "x" 1 u).studentGeometry ≠ none := by
      intro u h1 h2
      refine ⟨?_, ?_, ?_⟩
      · rw [rotateStudent_transform_of_loaded _ _ _ (hguard u h1 h2), if_pos rfl]
        norm_num
      · rw [rotateStudent_studentMeshPresent]; exact h1
      · rw [rotateStudent_studentGeometry]; exact h2
    obtain ⟨t1, m1, g1⟩ := step _ m0 g0
    obtain ⟨t2, m2, g2⟩ := step _ m1 g1
    obtain ⟨t3, m3, g3⟩ := step _ m2 g2
    obtain ⟨t4, m4, g4⟩ := step _ m3 g3
    rw [t4, t3, t2, t1, t0, mul_one, rotX_pow_four]
  · intro axis haxis
    by_cases hc : st2.studentMeshPresent = false ∨ st2.studentGeometry = none
    · rw [rotateStudent_noop _ _ _ hc, rotateStudent_noop _ _ _ hc]
    · have hc1 : ¬ ((rotateStudent axis 1 st2).studentMeshPresent = false ∨
          (rotateStudent axis 1 st2).studentGeometry = none) := by
        rw [rotateStudent_studentMeshPresent, rotateStudent_studentGeometry]; exact hc
      rw [rotateStudent_transform_of_loaded _ _ _ hc1,
          rotateStudent_transform_of_loaded _ _ _ hc]
      rcases haxis with hx | hy
      · subst hx
        rw [if_pos rfl, if_pos rfl]
        norm_num
        rw [← mul_assoc, rotX_inv_mul, one_mul]
      · subst hy
        have hyx : ¬ ("y" : String) = "x" := by decide
        rw [if_neg hyx, if_neg hyx, if_pos rfl, if_pos rfl]
        norm_num
        rw [← mul_assoc, rotY_inv_mul, one_mul]

/-- Witness for C6 at concrete states (the pair-inverse at an unloaded
state, where both calls are no-ops). -/
theorem orientation_group_action_witness :
    (rotateStudent "x" 1 (rotateStudent "x" 1 (rotateStudent "x" 1 (rotateStudent "x" 1
        (resetStudentOrientation
          ⟨true, none, true, some [], makeRotationY 0 1⟩))))).studentTransform = 1 ∧
    (rotateStudent "y" (-1) (rotateStudent "y" 1
        ⟨false, none, false, none, 1⟩)).studentTransform =
      (⟨false, none, false, none, 1⟩ : ViewerState).studentTransform :=
  ⟨(orientation_group_action ⟨true, none, true, some [], makeRotationY 0 1⟩
      ⟨false, none, false, none, 1⟩ rfl (by simp)).1,
   (orientation_group_action ⟨true, none, true, some [], makeRotationY 0 1⟩
      ⟨false, none, false, none, 1⟩ rfl (by simp)).2 "y" (Or.inr rfl)⟩

/-- C7: `loadStudent` scales every centered candidate vertex uniformly
by `max_extent(baseline) / max_extent(candidate)`, so the normalized
candidate's largest bounding dimension equals the baseline's exactly;
when the pre-scale candidate max extent is 0 the scale defaults to 1 and
the geometry is left as centered. -/
theorem normalize_candidate_scale (baselineVs vs : List Vec3) :
    loadStudentGeometry baselineVs vs =
      (centerGeometry vs).map (scaleVec (studentScale baselineVs (centerGeometry vs))) ∧
    (computeMaxDimension (centerGeometry vs) = ERat.fin 0 →
        loadStudentGeometry baselineVs vs = centerGeometry vs) ∧
    (computeMaxDimension (centerGeometry vs) ≠ ERat.fin 0 →
        computeMaxDimension (loadStudentGeometry baselineVs vs) =
          computeMaxDimension baselineVs) := by
  obtain ⟨sv, hsv, hsv0⟩ := computeMaxDimension_fin (centerGeometry vs)
  obtain ⟨bv, hbv, hbv0⟩ := computeMaxDimension_fin baselineVs
  refine ⟨rfl, ?_, ?_⟩
  · intro h0
    have hsc : studentScale baselineVs (centerGeometry vs) = 1 := by
      unfold studentScale
      rw [h0, hbv]
      norm_num
    show (centerGeometry vs).map
        (scaleVec (studentScale baselineVs (centerGeometry vs))) = centerGeometry vs
    rw [hsc]
    have hid : scaleVec (1 : ℚ) = fun w => w := by
      funext w
      simp [scaleVec]
    rw [hid]
    simp
  · intro hne
    have hsvne : sv ≠ 0 := by
      intro h
      exact hne (by rw [hsv, h])
    have hspos : 0 < sv := lt_of_le_of_ne hsv0 (Ne.symm hsvne)
    have hsc : studentScale baselineVs (centerGeometry vs) = bv / sv := by
      unfold studentScale
      rw [hsv, hbv]
      simp [hspos]
    show computeMaxDimension ((centerGeometry vs).map
        (scaleVec (studentScale baselineVs (centerGeometry vs)))) =
      computeMaxDimension baselineVs
    rw [hsc, computeMaxDimension_scale (bv / sv) (div_nonneg hbv0 (le_of_lt hspos)) _ sv hsv,
        div_mul_cancel₀ bv hsvne, hbv]

/-- Witness for C7: a candidate twice the baseline's extent is scaled
back to match, and a degenerate one-point candidate is left as
centered. -/
theorem normalize_candidate_scale_witness :
    computeMaxDimension (loadStudentGeometry [⟨0, 0, 0⟩, ⟨1, 0, 0⟩] [⟨0, 0, 0⟩, ⟨2, 0, 0⟩]) =
      computeMaxDimension [⟨0, 0, 0⟩, ⟨1, 0, 0⟩] ∧
    loadStudentGeometry [⟨0, 0, 0⟩, ⟨1, 0, 0⟩] [⟨5, 5, 5⟩] = centerGeometry [⟨5, 5, 5⟩] :=
  ⟨(normalize_candidate_scale [⟨0, 0, 0⟩, ⟨1, 0, 0⟩] [⟨0, 0, 0⟩, ⟨2, 0, 0⟩]).2.2
      (by norm_num [centerGeometry, computeMaxDimension, Box3.setFromBufferAttribute,
        Box3.expandByPoint, Box3.empty, Box3.getSize, Box3.isEmpty, List.foldl,
        ERat.jmin, ERat.jmax, ERat.jsub, ERat.jlt]),
   (normalize_candidate_scale [⟨0, 0, 0⟩, ⟨1, 0, 0⟩] [⟨5, 5, 5⟩]).2.1
      (by norm_num [centerGeometry, computeMaxDimension, Box3.setFromBufferAttribute,
        Box3.expandByPoint, Box3.empty, Box3.getSize, Box3.isEmpty, List.foldl,
        ERat.jmin, ERat.jmax, ERat.jsub, ERat.jlt])⟩

/-- C8: `loadStudent` called with no baseline loaded fails with the
precondition-missing error (an explicit `Except` value the caller
receives, not a crash), and no candidate state is established. -/
theorem loadStudent_requires_baseline (st : ViewerState) (vs : List Vec3)
    (hscene : st.sceneReady = true) (hb : st.baselineGeometry = none) :
    loadStudent st vs = .error "Load the baseline before loading a student model." ∧
    ∀ st' : ViewerState, loadStudent st vs ≠ Except.ok st' := by
  have h1 : loadStudent st vs =
      .error "Load the baseline before loading a student model." := by
    unfold loadStudent
    rw [if_neg (by simp [hscene]), hb]
  refine ⟨h1, ?_⟩
  intro st' hok
  rw [h1] at hok
  exact Except.noConfusion hok

/-- Witness for C8 at a concrete initialized state with no baseline. -/
theorem loadStudent_requires_baseline_witness :
    loadStudent ⟨true, none, false, none, 1⟩ [⟨1, 2, 3⟩] =
      .error "Load the baseline before loading a student model." :=
  (loadStudent_requires_baseline ⟨true, none, false, none, 1⟩ [⟨1, 2, 3⟩] rfl rfl).1

/-- C9: every sequence of rotate/reset actions leaves both stored
geometries untouched, and the effective candidate mesh handed to the
metrics is the orientation transform applied to a derived copy of the
stored candidate vertices. -/
theorem orientation_actions_frame (acts : List OrientAction) (st : ViewerState) :
    (runOrientActions acts st).studentGeometry = st.studentGeometry ∧
    (runOrientActions acts st).baselineGeometry = st.baselineGeometry ∧
    (∀ b s : List Vec3, st.baselineGeometry = some b → st.studentGeometry = some s →
        getNormalizedGeometries st = some (b, s.map (applyMatrix4 st.studentTransform))) := by
  refine ⟨?_, ?_, ?_⟩
  · induction acts generalizing st with
    | nil => rfl
    | cons a rest ih =>
        show (runOrientActions rest (a.apply st)).studentGeometry = st.studentGeometry
        rw [ih (a.apply st)]
        cases a with
        | rotate axis d => exact rotateStudent_studentGeometry axis d st
        | reset => exact resetStudentOrientation_studentGeometry st
  · induction acts generalizing st with
    | nil => rfl
    | cons a rest ih =>
        show (runOrientActions rest (a.apply st)).baselineGeometry = st.baselineGeometry
        rw [ih (a.apply st)]
        cases a with
        | rotate axis d => exact rotateStudent_baselineGeometry axis d st
        | reset => exact resetStudentOrientation_baselineGeometry st
  · intro b s hb hs
    unfold getNormalizedGeometries
    rw [hb, hs]

/-- Witness for C9 at a concrete loaded state and action sequence. -/
theorem orientation_actions_frame_witness :
    (runOrientActions [.rotate "x" 1, .reset, .rotate "y" (-1)]
        ⟨true, some [⟨1, 2, 3⟩], true, some [⟨4, 5, 6⟩], 1⟩).studentGeometry =
      (⟨true, some [⟨1, 2, 3⟩], true, some [⟨4, 5, 6⟩], 1⟩ : ViewerState).studentGeometry ∧
    getNormalizedGeometries ⟨true, some [⟨1, 2, 3⟩], true, some [⟨4, 5, 6⟩], 1⟩ =
      some ([⟨1, 2, 3⟩], [⟨4, 5, 6⟩].map (applyMatrix4
        (⟨true, some [⟨1, 2, 3⟩], true, some [⟨4, 5, 6⟩],
          1⟩ : ViewerState).studentTransform)) :=
  ⟨(orientation_actions_frame [.rotate "x" 1, .reset, .rotate "y" (-1)]
      ⟨true, some [⟨1, 2, 3⟩], true, some [⟨4, 5, 6⟩], 1⟩).1,
   (orientation_actions_frame [] ⟨true, some [⟨1, 2, 3⟩], true, some [⟨4, 5, 6⟩], 1⟩).2.2
      [⟨1, 2, 3⟩] [⟨4, 5, 6⟩] rfl rfl⟩
